import Mathlib

/-!
Verification development for the CellAnalyzer segmentation and scoring
pipeline (repository `Segmentacion-BASE`).

The visible orchestration code is `CellAnalizer_codigo/main.py`
(`segment_images`, `analyze_folder`, `main`).  The mask/element/index
engine it drives lives in the modules `model.folder` and `model.image`,
which are not part of the repository snapshot; those parts are modelled
from the design specification (spec.md sections 3, 4, 7) and each such
definition carries a doc comment starting with `Modelled from the spec:`.
-/

namespace CellAnalyzer

/-- A pixel coordinate, written (row, column). -/
abbrev Pixel := Nat × Nat

/-- A LabelMask: an image-sized integer grid where each positive value
identifies one detected object instance and 0 is background (spec.md
section 3).  The grid is stored row-major; `height`/`width` record the
dimensions the mask claims to have, which the structural contract checks
against the actual grid and the source image. -/
structure LabelMask where
  height : Nat
  width : Nat
  grid : List (List Nat)
deriving DecidableEq, Repr

/-- All (pixel, label) pairs of a grid, row-major. -/
def gridPixels (g : List (List Nat)) : List (Pixel × Nat) :=
  (g.enum.map fun rrow => rrow.2.enum.map fun cv => ((rrow.1, cv.1), cv.2)).flatten

/-- Pixel-membership set of the instance with label `l` in a mask. -/
def LabelMask.pixelsOf (m : LabelMask) (l : Nat) : List Pixel :=
  ((gridPixels m.grid).filter fun pv => pv.2 = l).map Prod.fst

/-- The positive instance labels present in a mask, without duplicates. -/
def LabelMask.labels (m : LabelMask) : List Nat :=
  (((gridPixels m.grid).map Prod.snd).filter fun v => v ≠ 0).dedup

/-- Modelled from the spec: a CellElement (spec.md section 3), as decoded
from a LabelMask by the missing `model.image` element-extraction code
(`add_elements`): the instance id (its label value) together with its
pixel-membership set, from which area and bounding box are derived. -/
structure Elem where
  id : Nat
  pixels : List Pixel
deriving DecidableEq, Repr

/-- Area of an element: the number of member pixels. -/
def Elem.area (e : Elem) : Nat := e.pixels.length

/-- Modelled from the spec: decoding of a LabelMask into its CellElement
candidates, one per positive label (missing `add_elements`). -/
def extractElems (m : LabelMask) : List Elem :=
  m.labels.map fun l => ⟨l, m.pixelsOf l⟩

/-- Configuration surface of the core engine (spec.md section 6): the
minimum-overlap threshold is the fraction minOverlapNum / minOverlapDen;
per-category area bounds; border rejection toggle. -/
structure Config where
  minOverlapNum : Nat
  minOverlapDen : Nat
  cytAreaMin : Nat
  cytAreaMax : Nat
  nucAreaMin : Nat
  nucAreaMax : Nat
  mnAreaMin : Nat
  mnAreaMax : Nat
  borderReject : Bool
deriving DecidableEq, Repr

/-- Number of pixels of `n` that fall inside the pixel membership of `c`.
All overlap fractions of `n` against candidate cytoplasms share the
denominator `n.area`, so overlap fractions are compared by comparing
these counts. -/
def overlapCount (n c : Elem) : Nat :=
  (n.pixels.filter fun p => p ∈ c.pixels).length

/-- Modelled from the spec: the AssociationEngine preference between two
candidate cytoplasms for an element `n` (spec.md section 4.1): strictly
larger overlap wins; on equal overlap the larger total area wins. -/
def betterCandidate (n c b : Elem) : Bool :=
  overlapCount n b < overlapCount n c ∨
    (overlapCount n c = overlapCount n b ∧ b.area < c.area)

/-- Modelled from the spec: the candidate with maximal overlap against
`n`, ties broken by larger total area (spec.md section 4.1). -/
def pickBest (n : Elem) : List Elem → Option Elem
  | [] => none
  | c :: rest =>
    match pickBest n rest with
    | none => some c
    | some b => if betterCandidate n c b then some c else some b

/-- Whether the overlap of `n` with `c` meets the minimum-overlap
threshold: overlapCount / n.area is at least minOverlapNum /
minOverlapDen, compared by cross-multiplication. -/
def meetsThreshold (cfg : Config) (n c : Elem) : Bool :=
  cfg.minOverlapNum * n.area ≤ overlapCount n c * cfg.minOverlapDen

/-- Modelled from the spec: the AssociationEngine assignment of a nucleus
or micronucleus element to at most one cytoplasm (spec.md section 4.1):
the cytoplasm with maximal overlap, subject to the minimum-overlap
threshold; below threshold the element is unassigned. -/
def assign (cfg : Config) (n : Elem) (C : List Elem) : Option Elem :=
  match pickBest n C with
  | none => none
  | some b => if meetsThreshold cfg n b then some b else none

/-- Modelled from the spec: whether an element's bounding box touches the
image border, i.e. row 0, column 0, or the maximum row or column
(spec.md sections 4.2 and 8).  The bounding box touches one of these
extremes exactly when some member pixel does. -/
def touchesBorder (e : Elem) (height width : Nat) : Bool :=
  e.pixels.any fun p =>
    p.1 = 0 ∨ p.2 = 0 ∨ p.1 = height - 1 ∨ p.2 = width - 1

/-- Area band acceptance: the area lies in the configured [lo, hi] band. -/
def areaOk (lo hi a : Nat) : Bool := lo ≤ a ∧ a ≤ hi

/-- Modelled from the spec: the ValidationFilter acceptance rule for a
cytoplasm candidate (spec.md section 4.2, missing `select_elements` of
the cytoplasm mask): reject when the bounding box touches the image
border (if border rejection is enabled) or when the area falls outside
the configured band. -/
def acceptCytoplasm (cfg : Config) (height width : Nat) (e : Elem) : Bool :=
  (!cfg.borderReject || !touchesBorder e height width) &&
    areaOk cfg.cytAreaMin cfg.cytAreaMax e.area

/-- Modelled from the spec: the accepted cytoplasm subset of one image. -/
def selectCytoplasms (cfg : Config) (height width : Nat)
    (C : List Elem) : List Elem :=
  C.filter (acceptCytoplasm cfg height width)

/-- Modelled from the spec: the ValidationFilter area-band rule for
nucleus candidates (spec.md section 4.2, missing `select_elements` of
the nucleus mask). -/
def selectNuclei (cfg : Config) (N : List Elem) : List Elem :=
  N.filter fun n => areaOk cfg.nucAreaMin cfg.nucAreaMax n.area

/-- Modelled from the spec: the ValidationFilter area-band rule for
micronucleus candidates (spec.md section 4.2, missing `select_elements`
of the micronucleus mask). -/
def selectMicronuclei (cfg : Config) (M : List Elem) : List Elem :=
  M.filter fun m => areaOk cfg.mnAreaMin cfg.mnAreaMax m.area

/-- Classification of a cell by nuclear multiplicity (spec.md section 3). -/
inductive Classification where
  | mononucleate
  | binucleate
  | trinucleate
  | invalid
deriving DecidableEq, Repr

/-- Modelled from the spec: the classification rule of spec.md section
4.3 (missing CellRecord construction code): accepted-nuclei count 1 is
mononucleate, 2 binucleate, 3 trinucleate, 0 or more than 3 invalid. -/
def classify (k : Nat) : Classification :=
  if k = 1 then .mononucleate
  else if k = 2 then .binucleate
  else if k = 3 then .trinucleate
  else .invalid

/-- Modelled from the spec: a CellRecord (spec.md section 3): the
cytoplasm element, its associated nuclei and micronuclei, and the
derived classification. -/
structure CellRecord where
  cytoplasm : Elem
  nuclei : List Elem
  micronuclei : List Elem
  classification : Classification
deriving DecidableEq, Repr

/-- The elements of pool `pool` that the AssociationEngine assigns to the
cytoplasm `c` among the accepted cytoplasms `C`. -/
def assignedTo (cfg : Config) (c : Elem) (C pool : List Elem) : List Elem :=
  pool.filter fun n => assign cfg n C = some c

/-- The CellRecord of one accepted cytoplasm: the nuclei and micronuclei
assigned to it, and the classification derived from its accepted-nuclei
count. -/
def recordFor (cfg : Config) (c : Elem) (C N M : List Elem) : CellRecord :=
  { cytoplasm := c
    nuclei := assignedTo cfg c C N
    micronuclei := assignedTo cfg c C M
    classification := classify (assignedTo cfg c C N).length }

/-- Modelled from the spec: construction of one CellRecord per accepted
cytoplasm (spec.md sections 3 and 4.3). -/
def buildRecords (cfg : Config) (C N M : List Elem) : List CellRecord :=
  C.map fun c => recordFor cfg c C N M

/-- Error taxonomy of the index computation (spec.md section 7). -/
inductive BatchError where
  | DegenerateBatch
  | EmptyPopulation
deriving DecidableEq, Repr

/-- Number of records in a batch carrying a given classification. -/
def classCount (recs : List CellRecord) (cl : Classification) : Nat :=
  (recs.filter fun r => r.classification = cl).length

/-- Total accepted micronuclei across a batch of records. -/
def totalMicronuclei (recs : List CellRecord) : Nat :=
  (recs.map fun r => r.micronuclei.length).sum

/-- Modelled from the spec: the IndexCalculator genotoxicity index
(spec.md section 4.4, missing `calculate_indices`): total accepted
micronuclei per binucleated cell, reported as an explicit DegenerateBatch
result when the batch has no binucleate cells. -/
def genotoxicity (recs : List CellRecord) : Except BatchError Rat :=
  let b := classCount recs .binucleate
  if b = 0 then .error .DegenerateBatch
  else .ok ((totalMicronuclei recs : Rat) / (b : Rat))

/-- Modelled from the spec: the IndexCalculator cytotoxicity index
(spec.md section 4.4, missing `calculate_indices`): the weighted
multiplicity index (M1 + 2 M2 + 3 M3) / (M1 + M2 + M3) over valid
classifications only, reported as an explicit EmptyPopulation result
when the valid population is empty. -/
def cytotoxicity (recs : List CellRecord) : Except BatchError Rat :=
  let m1 := classCount recs .mononucleate
  let m2 := classCount recs .binucleate
  let m3 := classCount recs .trinucleate
  if m1 + m2 + m3 = 0 then .error .EmptyPopulation
  else .ok (((m1 + 2 * m2 + 3 * m3 : Nat) : Rat) / ((m1 + m2 + m3 : Nat) : Rat))

/-- The three LabelMasks of one image together with the image's name and
pixel dimensions (the `shape` that `analyze_folder` passes to the
cytoplasm filter in main.py line 90). -/
structure ImageMasks where
  name : Nat
  height : Nat
  width : Nat
  mask_cytoplasm : LabelMask
  mask_nucleus : LabelMask
  mask_micronucleus : LabelMask
deriving DecidableEq, Repr

/-- The per-image analysis pass of `analyze_folder` (main.py lines
83-94): extract elements from the three masks, filter them, associate
nuclei and micronuclei to accepted cytoplasms, and build one CellRecord
per accepted cytoplasm.  The element extraction, filters and association
are the spec-modelled engine definitions above. -/
def analyzeImage (cfg : Config) (im : ImageMasks) : List CellRecord :=
  let C := selectCytoplasms cfg im.height im.width (extractElems im.mask_cytoplasm)
  let N := selectNuclei cfg (extractElems im.mask_nucleus)
  let M := selectMicronuclei cfg (extractElems im.mask_micronucleus)
  buildRecords cfg C N M

/-- Outcome of one batch: the CellRecord population together with both
indices, as assembled by `analyze_folder` and `calculate_indices`
(main.py lines 97-108). -/
structure BatchResult where
  records : List CellRecord
  cytotoxicity_index : Except BatchError Rat
  genotoxicity_index : Except BatchError Rat

/-- The full analysis pipeline over a batch of images (`analyze_folder`,
main.py lines 72-108): analyze every image, then compute both indices
once over the whole CellRecord population. -/
def analyzeBatch (cfg : Config) (imgs : List ImageMasks) : BatchResult :=
  let recs := (imgs.map (analyzeImage cfg)).flatten
  { records := recs
    cytotoxicity_index := cytotoxicity recs
    genotoxicity_index := genotoxicity recs }

/-- Modelled from the spec: the structural contract a LabelMask must
satisfy against its image (spec.md section 7, InvalidMask; the check
itself lives in the missing `model.image` code): the recorded dimensions
match the image dimensions and the grid really has that shape.  Label
values are integers by construction in this embedding. -/
def maskValidFor (m : LabelMask) (height width : Nat) : Bool :=
  m.height = height ∧ m.width = width ∧
    m.grid.length = height ∧ m.grid.all fun row => row.length = width

/-- Whether all three masks of an image satisfy the structural contract. -/
def imageValid (im : ImageMasks) : Bool :=
  maskValidFor im.mask_cytoplasm im.height im.width &&
    maskValidFor im.mask_nucleus im.height im.width &&
    maskValidFor im.mask_micronucleus im.height im.width

/-- Modelled from the spec: the batch driver with per-image failure
isolation (spec.md section 7): an image whose LabelMask fails the
structural contract is skipped and its name recorded as failed; every
other image is analyzed.  Returns (failed image names, per-image
results). -/
def processBatch (cfg : Config) :
    List ImageMasks → List Nat × List (Nat × List CellRecord)
  | [] => ([], [])
  | im :: rest =>
    if imageValid im then
      ((processBatch cfg rest).1,
        (im.name, analyzeImage cfg im) :: (processBatch cfg rest).2)
    else
      (im.name :: (processBatch cfg rest).1, (processBatch cfg rest).2)

/-- An `Image` object as used by `segment_images` and `analyze_folder`
(main.py): the image data (its dimensions here) and three mask slots,
empty until a mask is uploaded. -/
structure Image where
  name : Nat
  height : Nat
  width : Nat
  mask_cytoplasm : Option LabelMask
  mask_nucleus : Option LabelMask
  mask_micronucleus : Option LabelMask
deriving DecidableEq, Repr

/-- Result shapes of the external segmentation call `model.eval` handled
by `segment_images` (main.py lines 44-55): four values (masks, flows,
styles, diams) or three values (masks, flows, styles).  Flows and styles
are opaque payloads to this glue. -/
inductive EvalResult where
  | four (masks : LabelMask) (flows : Nat) (styles : Nat) (diams : Nat)
  | three (masks : LabelMask) (flows : Nat) (styles : Nat)
deriving DecidableEq, Repr

/-- The masks component of either result shape. -/
def EvalResult.masksOf : EvalResult → LabelMask
  | .four m _ _ _ => m
  | .three m _ _ => m

/-- The unpacking of `segment_images` (main.py lines 51-55): with four
values all four are taken; with three values the caller-specified
diameter stands in for the estimated one. -/
def unpackEval (diameter : Nat) : EvalResult → LabelMask × Nat × Nat × Nat
  | .four m f s d => (m, f, s, d)
  | .three m f s => (m, f, s, diameter)

/-- The per-image tail of `segment_images` (main.py lines 57-68): the
masks component of the evaluation result is saved and uploaded via
`upload_mask_cytoplasm`; nothing else on the image changes. -/
def segmentStep (diameter : Nat) (img : Image) (r : EvalResult) : Image :=
  { img with mask_cytoplasm := some (unpackEval diameter r).1 }

/-- The per-image body of `analyze_folder` as applied to an `Image`
object (main.py lines 85-94): it dereferences all three mask slots
unconditionally; in this embedding a missing slot yields `none` (the
Python code would raise on the `None` attribute access). -/
def analyzeLoadedImage (cfg : Config) (img : Image) :
    Option (List CellRecord) :=
  match img.mask_cytoplasm, img.mask_nucleus, img.mask_micronucleus with
  | some mc, some mn, some mm =>
    some (analyzeImage cfg
      ⟨img.name, img.height, img.width, mc, mn, mm⟩)
  | _, _, _ => none

/-- Test fixture: threshold 1/2, area band [1, 100] for every category,
border rejection enabled. -/
def cfgFix : Config := ⟨1, 2, 1, 100, 1, 100, 1, 100, true⟩

/-- Test fixture: a four-pixel cytoplasm away from the border. -/
def cytA : Elem := ⟨1, [(1, 1), (1, 2), (2, 1), (2, 2)]⟩

/-- Test fixture: a second, smaller cytoplasm. -/
def cytB : Elem := ⟨2, [(5, 5), (5, 6)]⟩

/-- Test fixture: a nucleus fully contained in cytA. -/
def nucA : Elem := ⟨1, [(1, 1), (1, 2)]⟩

/-- Test fixture: a nucleus contained in cytB. -/
def nucB : Elem := ⟨2, [(5, 5)]⟩

/-- Test fixture: a nucleus overlapping no cytoplasm. -/
def nucFree : Elem := ⟨3, [(9, 9)]⟩

/-- Test fixture: a well-formed 2 by 2 image whose three masks pass the
structural contract. -/
def imgGood : ImageMasks :=
  ⟨0, 2, 2, ⟨2, 2, [[0, 1], [0, 1]]⟩, ⟨2, 2, [[0, 1], [0, 0]]⟩,
    ⟨2, 2, [[0, 0], [0, 0]]⟩⟩

/-- Test fixture: a second well-formed image. -/
def imgGood2 : ImageMasks :=
  ⟨1, 2, 2, ⟨2, 2, [[0, 0], [1, 1]]⟩, ⟨2, 2, [[0, 0], [1, 0]]⟩,
    ⟨2, 2, [[0, 0], [0, 0]]⟩⟩

/-- Test fixture: an image whose cytoplasm mask fails the structural
contract by a dimension mismatch against the image. -/
def imgBad : ImageMasks :=
  ⟨2, 2, 2, ⟨1, 2, [[0, 1]]⟩, ⟨2, 2, [[0, 0], [0, 0]]⟩,
    ⟨2, 2, [[0, 0], [0, 0]]⟩⟩

theorem pickBest_mem (n : Elem) (C : List Elem) (b : Elem)
    (h : pickBest n C = some b) : b ∈ C := by
  induction C with
  | nil => simp [pickBest] at h
  | cons c rest ih =>
    simp only [pickBest] at h
    cases hrest : pickBest n rest with
    | none => simp [hrest] at h; simp [h]
    | some b0 =>
      simp only [hrest] at h
      by_cases hb : betterCandidate n c b0
      · simp [hb] at h; simp [h]
      · simp [hb] at h
        exact List.mem_cons_of_mem _ (ih (h ▸ hrest))

theorem pickBest_isSome (n : Elem) (C : List Elem) (hne : C ≠ []) :
    ∃ b, pickBest n C = some b := by
  cases C with
  | nil => exact absurd rfl hne
  | cons c rest =>
    simp only [pickBest]
    cases pickBest n rest with
    | none => exact ⟨c, rfl⟩
    | some b0 =>
      by_cases hb : betterCandidate n c b0
      · exact ⟨c, by simp [hb]⟩
      · exact ⟨b0, by simp [hb]⟩

theorem pickBest_maximal (n : Elem) (C : List Elem) (b : Elem)
    (h : pickBest n C = some b) :
    ∀ c ∈ C, overlapCount n c < overlapCount n b ∨
      (overlapCount n c = overlapCount n b ∧ c.area ≤ b.area) := by
  induction C generalizing b with
  | nil => simp
  | cons c0 rest ih =>
    intro c hc
    simp only [pickBest] at h
    cases hrest : pickBest n rest with
    | none =>
      have hnil : rest = [] := by
        cases rest with
        | nil => rfl
        | cons x xs =>
          rcases pickBest_isSome n (x :: xs) (by simp) with ⟨b0, hb0⟩
          rw [hrest] at hb0; cases hb0
      simp only [hrest] at h
      have hcb : c0 = b := by injection h
      subst hnil
      rcases List.mem_singleton.mp hc with rfl
      right; exact ⟨hcb ▸ rfl, hcb ▸ le_refl _⟩
    | some b0 =>
      simp only [hrest] at h
      by_cases hbet : betterCandidate n c0 b0
      · have hcb : c0 = b := by simpa [hbet] using h
        subst hcb
        rcases List.mem_cons.mp hc with rfl | hmem
        · right; exact ⟨rfl, le_refl _⟩
        · have hmax := ih b0 hrest c hmem
          rcases (by simpa [betterCandidate] using hbet :
              overlapCount n b0 < overlapCount n c0 ∨
                overlapCount n c0 = overlapCount n b0 ∧ b0.area < c0.area) with
            hlt | ⟨heq, harea⟩
          · rcases hmax with h1 | ⟨h1, _⟩
            · exact Or.inl (h1.trans hlt)
            · exact Or.inl (h1 ▸ hlt)
          · rcases hmax with h1 | ⟨h1, h2⟩
            · exact Or.inl (heq ▸ h1)
            · exact Or.inr ⟨heq ▸ h1, le_of_lt (lt_of_le_of_lt h2 harea)⟩
      · have hcb : b0 = b := by simpa [hbet] using h
        subst hcb
        rcases List.mem_cons.mp hc with rfl | hmem
        · have hnb := (by simpa [betterCandidate] using hbet :
              ¬(overlapCount n b0 < overlapCount n c ∨
                overlapCount n c = overlapCount n b0 ∧ b0.area < c.area))
          push_neg at hnb
          rcases lt_or_eq_of_le hnb.1 with hlt | heq
          · exact Or.inl hlt
          · exact Or.inr ⟨heq, hnb.2 heq⟩
        · exact ih b0 hrest c hmem


/-- C8: segment_images accepts both result shapes of the external
segmentation call: with 4 values it unpacks masks, flows, styles and
diams; with 3 values it unpacks masks, flows and styles and uses the
caller-specified diameter in place of the estimated one; and the
downstream mask handling (the mask saved and uploaded) is the masks
component in both cases. -/
theorem eval_unpacking_contract (d : Nat) (m : LabelMask) (f s dm : Nat)
    (img : Image) (r : EvalResult) :
    unpackEval d (.four m f s dm) = (m, f, s, dm) ∧
    unpackEval d (.three m f s) = (m, f, s, d) ∧
    (unpackEval d r).1 = r.masksOf ∧
    (segmentStep d img r).mask_cytoplasm = some r.masksOf := by
  refine ⟨rfl, rfl, ?_, ?_⟩ <;> cases r <;> rfl

/-- C10: along the segmentation path only the cytoplasm mask slot is
written (via upload_mask_cytoplasm); the nucleus and micronucleus slots
are left untouched, even though the per-image analysis of analyze_folder
dereferences mask_nucleus and mask_micronucleus unconditionally, so a
freshly segmented image cannot be analyzed. -/
theorem segmentation_frame_effect (cfg : Config) (d : Nat) (img : Image)
    (r : EvalResult) :
    (segmentStep d img r).mask_nucleus = img.mask_nucleus ∧
    (segmentStep d img r).mask_micronucleus = img.mask_micronucleus ∧
    ((img.mask_nucleus = none ∨ img.mask_micronucleus = none) →
      analyzeLoadedImage cfg (segmentStep d img r) = none) ∧
    (∀ recs, analyzeLoadedImage cfg img = some recs →
      img.mask_nucleus ≠ none ∧ img.mask_micronucleus ≠ none) := by
  obtain ⟨nm, hh, ww, mc, mn, mm⟩ := img
  refine ⟨rfl, rfl, ?_, ?_⟩
  · intro hmiss
    rcases hmiss with hn | hm
    · simp only [Image.mask_nucleus] at hn
      subst hn
      simp [analyzeLoadedImage, segmentStep]
    · simp only [Image.mask_micronucleus] at hm
      subst hm
      cases mn <;> simp [analyzeLoadedImage, segmentStep]
  · intro recs hsome
    cases mc <;> cases mn <;> cases mm <;>
      simp [analyzeLoadedImage] at hsome ⊢

theorem segmentation_frame_effect_witness :
    analyzeLoadedImage ⟨1, 2, 1, 100, 1, 100, 1, 100, true⟩
      (segmentStep 30 ⟨0, 4, 4, none, none, none⟩
        (.three ⟨4, 4, [[0,0,0,0],[0,1,1,0],[0,1,1,0],[0,0,0,0]]⟩ 0 0)) =
      none :=
  (segmentation_frame_effect ⟨1, 2, 1, 100, 1, 100, 1, 100, true⟩ 30
    ⟨0, 4, 4, none, none, none⟩
    (.three ⟨4, 4, [[0,0,0,0],[0,1,1,0],[0,1,1,0],[0,0,0,0]]⟩ 0 0)).2.2.1
    (Or.inl rfl)

/-- C6: the full pipeline is a deterministic function of its inputs: two
runs on the same LabelMasks with identical configuration yield identical
CellRecord classifications and identical cytotoxicity and genotoxicity
indices. -/
theorem pipeline_deterministic (cfg1 cfg2 : Config)
    (i1 i2 : List ImageMasks) (hc : cfg1 = cfg2) (hi : i1 = i2) :
    (analyzeBatch cfg1 i1).records.map (fun r => r.classification) =
      (analyzeBatch cfg2 i2).records.map (fun r => r.classification) ∧
    (analyzeBatch cfg1 i1).records = (analyzeBatch cfg2 i2).records ∧
    (analyzeBatch cfg1 i1).cytotoxicity_index =
      (analyzeBatch cfg2 i2).cytotoxicity_index ∧
    (analyzeBatch cfg1 i1).genotoxicity_index =
      (analyzeBatch cfg2 i2).genotoxicity_index := by
  subst hc; subst hi; exact ⟨rfl, rfl, rfl, rfl⟩

theorem pipeline_deterministic_witness :
    (analyzeBatch ⟨1, 2, 1, 100, 1, 100, 1, 100, true⟩
        [⟨0, 2, 2, ⟨2, 2, [[0,1],[0,1]]⟩, ⟨2, 2, [[0,1],[0,0]]⟩,
          ⟨2, 2, [[0,0],[0,0]]⟩⟩]).records =
      (analyzeBatch ⟨1, 2, 1, 100, 1, 100, 1, 100, true⟩
        [⟨0, 2, 2, ⟨2, 2, [[0,1],[0,1]]⟩, ⟨2, 2, [[0,1],[0,0]]⟩,
          ⟨2, 2, [[0,0],[0,0]]⟩⟩]).records :=
  (pipeline_deterministic ⟨1, 2, 1, 100, 1, 100, 1, 100, true⟩
    ⟨1, 2, 1, 100, 1, 100, 1, 100, true⟩
    [⟨0, 2, 2, ⟨2, 2, [[0,1],[0,1]]⟩, ⟨2, 2, [[0,1],[0,0]]⟩,
      ⟨2, 2, [[0,0],[0,0]]⟩⟩]
    [⟨0, 2, 2, ⟨2, 2, [[0,1],[0,1]]⟩, ⟨2, 2, [[0,1],[0,0]]⟩,
      ⟨2, 2, [[0,0],[0,0]]⟩⟩] rfl rfl).2.1

/-- C9: a cytoplasm whose bounding box touches row 0, column 0, or the
maximum row or column is excluded by the ValidationFilter whenever
border rejection is enabled; with border rejection disabled such a
cytoplasm is rejected exactly when it fails the configured area bounds. -/
theorem border_rejection_contract (cfg : Config) (h w : Nat) (e : Elem)
    (ht : touchesBorder e h w = true) :
    (cfg.borderReject = true → acceptCytoplasm cfg h w e = false) ∧
    (cfg.borderReject = true →
      ∀ C, e ∉ selectCytoplasms cfg h w C) ∧
    (cfg.borderReject = false →
      (acceptCytoplasm cfg h w e = false ↔
        areaOk cfg.cytAreaMin cfg.cytAreaMax e.area = false)) := by
  refine ⟨?_, ?_, ?_⟩
  · intro hbr; simp [acceptCytoplasm, hbr, ht]
  · intro hbr C hmem
    have hacc := (List.mem_filter.mp hmem).2
    simp [acceptCytoplasm, hbr, ht] at hacc
  · intro hbr
    simp [acceptCytoplasm, hbr]

theorem border_rejection_contract_witness :
    acceptCytoplasm ⟨1, 2, 1, 100, 1, 100, 1, 100, true⟩ 5 5
        ⟨1, [(0, 3), (1, 3)]⟩ = false ∧
    (acceptCytoplasm ⟨1, 2, 1, 100, 1, 100, 1, 100, false⟩ 5 5
        ⟨1, [(0, 3), (1, 3)]⟩ = false ↔
      areaOk 1 100 (Elem.area ⟨1, [(0, 3), (1, 3)]⟩) = false) :=
  ⟨(border_rejection_contract ⟨1, 2, 1, 100, 1, 100, 1, 100, true⟩ 5 5
      ⟨1, [(0, 3), (1, 3)]⟩ (by decide)).1 rfl,
   (border_rejection_contract ⟨1, 2, 1, 100, 1, 100, 1, 100, false⟩ 5 5
      ⟨1, [(0, 3), (1, 3)]⟩ (by decide)).2.2 rfl⟩

/-- C1: the genotoxicity computation reports an explicit DegenerateBatch
result, rather than dividing by zero, whenever the batch has no
binucleate cells; whenever it is defined, the index is non-negative. -/
theorem genotoxicity_defined_and_nonneg (recs : List CellRecord) :
    (classCount recs .binucleate = 0 →
      genotoxicity recs = .error .DegenerateBatch) ∧
    (classCount recs .binucleate ≠ 0 →
      ∃ q : Rat, genotoxicity recs = .ok q ∧ 0 ≤ q) := by
  constructor
  · intro h0
    simp [genotoxicity, h0]
  · intro hne
    refine ⟨(totalMicronuclei recs : Rat) / (classCount recs .binucleate : Rat),
      ?_, ?_⟩
    · simp [genotoxicity, hne]
    · exact div_nonneg (Nat.cast_nonneg _) (Nat.cast_nonneg _)

theorem genotoxicity_defined_and_nonneg_witness :
    genotoxicity [] = .error .DegenerateBatch ∧
    ∃ q : Rat,
      genotoxicity [⟨⟨1, [(1, 1)]⟩, [], [], .binucleate⟩] = .ok q ∧ 0 ≤ q :=
  ⟨(genotoxicity_defined_and_nonneg []).1 rfl,
   (genotoxicity_defined_and_nonneg
     [⟨⟨1, [(1, 1)]⟩, [], [], .binucleate⟩]).2 (by decide)⟩

/-- C5: the derived classification of a cytoplasm with accepted-nuclei
count k is mononucleate for k = 1, binucleate for k = 2, trinucleate for
k = 3, invalid for k = 0 or k > 3; and invalid cells are excluded from
the cytotoxicity formula (prepending an invalid record leaves the
cytotoxicity computation unchanged). -/
theorem classification_rule (k : Nat) (recs : List CellRecord)
    (r : CellRecord) :
    classify 1 = .mononucleate ∧ classify 2 = .binucleate ∧
    classify 3 = .trinucleate ∧
    ((k = 0 ∨ 3 < k) → classify k = .invalid) ∧
    (r.classification = .invalid →
      cytotoxicity (r :: recs) = cytotoxicity recs) := by
  refine ⟨rfl, rfl, rfl, ?_, ?_⟩
  · intro hk
    have h1 : k ≠ 1 := by omega
    have h2 : k ≠ 2 := by omega
    have h3 : k ≠ 3 := by omega
    simp [classify, h1, h2, h3]
  · intro hinv
    have hcnt : ∀ cl : Classification, cl ≠ .invalid →
        classCount (r :: recs) cl = classCount recs cl := by
      intro cl hcl
      have : ¬(r.classification = cl) := fun h => hcl (h ▸ hinv.symm ▸ rfl)
      simp only [classCount, List.filter_cons, hinv]
      rw [if_neg fun h => hcl ((decide_eq_true_eq.mp h).symm)]
    simp [cytotoxicity, hcnt Classification.mononucleate (by simp),
      hcnt Classification.binucleate (by simp),
      hcnt Classification.trinucleate (by simp)]

theorem classification_rule_witness :
    classify 5 = .invalid ∧
    cytotoxicity [⟨⟨1, [(1, 1)]⟩, [], [], .invalid⟩] = cytotoxicity [] :=
  ⟨(classification_rule 5 [] ⟨⟨1, [(1, 1)]⟩, [], [], .invalid⟩).2.2.2.1
      (by decide),
   (classification_rule 5 [] ⟨⟨1, [(1, 1)]⟩, [], [], .invalid⟩).2.2.2.2 rfl⟩

theorem classCount_four_partition (recs : List CellRecord) :
    classCount recs .binucleate + classCount recs .mononucleate +
      classCount recs .trinucleate + classCount recs .invalid =
      recs.length := by
  induction recs with
  | nil => rfl
  | cons r rest ih =>
    cases hcl : r.classification <;>
      simp [classCount, List.filter_cons, hcl] at ih ⊢ <;> omega

/-- C2: per-classification cell counts partition the cytoplasm
population of a batch: mononucleate + binucleate + trinucleate + invalid
record counts equal the number of CellRecords, which is the total number
of accepted cytoplasms across the images of the batch. -/
theorem classification_counts_partition (cfg : Config)
    (imgs : List ImageMasks) :
    classCount (analyzeBatch cfg imgs).records .binucleate +
      classCount (analyzeBatch cfg imgs).records .mononucleate +
      classCount (analyzeBatch cfg imgs).records .trinucleate +
      classCount (analyzeBatch cfg imgs).records .invalid =
      (analyzeBatch cfg imgs).records.length ∧
    (analyzeBatch cfg imgs).records.length =
      (imgs.map fun im =>
        (selectCytoplasms cfg im.height im.width
          (extractElems im.mask_cytoplasm)).length).sum := by
  constructor
  · exact classCount_four_partition _
  · simp only [analyzeBatch, List.length_flatten, List.map_map]
    congr 1
    exact List.map_congr_left fun im _ => by
      simp [Function.comp, analyzeImage, buildRecords]

/-- C4: the AssociationEngine assigns an element to the cytoplasm with
maximal overlap only when the overlap meets the minimum-overlap
threshold; when every candidate is below the threshold the element is
unassigned; and any other cytoplasm with equal maximal overlap has an
area no larger than the assigned one. -/
theorem association_engine_contract (cfg : Config) (n : Elem)
    (C : List Elem) :
    (∀ b, assign cfg n C = some b →
      b ∈ C ∧ meetsThreshold cfg n b = true ∧
        ∀ c ∈ C, overlapCount n c < overlapCount n b ∨
          (overlapCount n c = overlapCount n b ∧ c.area ≤ b.area)) ∧
    ((∀ c ∈ C, meetsThreshold cfg n c = false) → assign cfg n C = none) := by
  constructor
  · intro b h
    unfold assign at h
    cases hp : pickBest n C with
    | none => rw [hp] at h; cases h
    | some b0 =>
      rw [hp] at h
      dsimp only at h
      by_cases hm : meetsThreshold cfg n b0
      · rw [if_pos hm] at h
        injection h with hb
        subst hb
        exact ⟨pickBest_mem n C b0 hp, hm, pickBest_maximal n C b0 hp⟩
      · rw [if_neg hm] at h; cases h
  · intro hall
    unfold assign
    cases hp : pickBest n C with
    | none => rfl
    | some b0 =>
      have hb0 : b0 ∈ C := pickBest_mem n C b0 hp
      simp [hall b0 hb0]

theorem association_engine_contract_witness :
    (cytA ∈ [cytA, cytB] ∧ meetsThreshold cfgFix nucA cytA = true ∧
      ∀ c ∈ [cytA, cytB], overlapCount nucA c < overlapCount nucA cytA ∨
        (overlapCount nucA c = overlapCount nucA cytA ∧
          c.area ≤ cytA.area)) ∧
    assign cfgFix nucFree [cytA, cytB] = none :=
  ⟨(association_engine_contract cfgFix nucA [cytA, cytB]).1 cytA (by decide),
   (association_engine_contract cfgFix nucFree [cytA, cytB]).2 (by decide)⟩

theorem mem_buildRecords_iff (cfg : Config) (C N M : List Elem)
    (r : CellRecord) :
    r ∈ buildRecords cfg C N M ↔ ∃ c ∈ C, r = recordFor cfg c C N M := by
  simp [buildRecords, eq_comm]

/-- C3: across the CellRecord list of one image, every nucleus and every
micronucleus belongs to at most one record (two distinct records have
disjoint nucleus lists and disjoint micronucleus lists), and an element
the AssociationEngine leaves unassigned appears in no record at all. -/
theorem records_disjoint_partition (cfg : Config) (C N M : List Elem) :
    (∀ r1 ∈ buildRecords cfg C N M, ∀ r2 ∈ buildRecords cfg C N M,
      r1 ≠ r2 →
        (∀ n, n ∈ r1.nuclei → n ∉ r2.nuclei) ∧
        (∀ m, m ∈ r1.micronuclei → m ∉ r2.micronuclei)) ∧
    (∀ n, assign cfg n C = none →
      ∀ r ∈ buildRecords cfg C N M, n ∉ r.nuclei ∧ n ∉ r.micronuclei) := by
  constructor
  · intro r1 h1 r2 h2 hne
    rcases (mem_buildRecords_iff cfg C N M r1).mp h1 with ⟨c1, hc1, rfl⟩
    rcases (mem_buildRecords_iff cfg C N M r2).mp h2 with ⟨c2, hc2, rfl⟩
    constructor
    · intro n hn1 hn2
      have ha1 := (by simpa [recordFor, assignedTo] using hn1 :
        n ∈ N ∧ assign cfg n C = some c1).2
      have ha2 := (by simpa [recordFor, assignedTo] using hn2 :
        n ∈ N ∧ assign cfg n C = some c2).2
      have hc : c1 = c2 := Option.some.inj (ha1.symm.trans ha2)
      exact hne (by rw [hc])
    · intro m hm1 hm2
      have ha1 := (by simpa [recordFor, assignedTo] using hm1 :
        m ∈ M ∧ assign cfg m C = some c1).2
      have ha2 := (by simpa [recordFor, assignedTo] using hm2 :
        m ∈ M ∧ assign cfg m C = some c2).2
      have hc : c1 = c2 := Option.some.inj (ha1.symm.trans ha2)
      exact hne (by rw [hc])
  · intro n hnone r hr
    rcases (mem_buildRecords_iff cfg C N M r).mp hr with ⟨c, hc, rfl⟩
    constructor
    · intro hmem
      have ha := (by simpa [recordFor, assignedTo] using hmem :
        n ∈ N ∧ assign cfg n C = some c).2
      rw [hnone] at ha; cases ha
    · intro hmem
      have ha := (by simpa [recordFor, assignedTo] using hmem :
        n ∈ M ∧ assign cfg n C = some c).2
      rw [hnone] at ha; cases ha

theorem records_disjoint_partition_witness :
    nucA ∉ (recordFor cfgFix cytB [cytA, cytB] [nucA, nucB] []).nuclei ∧
    nucFree ∉ (recordFor cfgFix cytA [cytA, cytB] [nucFree] []).nuclei :=
  ⟨((records_disjoint_partition cfgFix [cytA, cytB] [nucA, nucB] []).1
      (recordFor cfgFix cytA [cytA, cytB] [nucA, nucB] []) (by decide)
      (recordFor cfgFix cytB [cytA, cytB] [nucA, nucB] []) (by decide)
      (by decide)).1 nucA (by decide),
   ((records_disjoint_partition cfgFix [cytA, cytB] [nucFree] []).2
      nucFree (by decide)
      (recordFor cfgFix cytA [cytA, cytB] [nucFree] []) (by decide)).1⟩

theorem processBatch_append (cfg : Config) (xs ys : List ImageMasks) :
    processBatch cfg (xs ++ ys) =
      ((processBatch cfg xs).1 ++ (processBatch cfg ys).1,
        (processBatch cfg xs).2 ++ (processBatch cfg ys).2) := by
  induction xs with
  | nil => simp [processBatch]
  | cons x rest ih =>
    by_cases hx : imageValid x <;>
      simp [processBatch, hx, ih]

theorem processBatch_mem_ok (cfg : Config) (im : ImageMasks)
    (l : List ImageMasks) (hmem : im ∈ l) (hv : imageValid im = true) :
    (im.name, analyzeImage cfg im) ∈ (processBatch cfg l).2 := by
  induction l with
  | nil => simp at hmem
  | cons x rest ih =>
    rcases List.mem_cons.mp hmem with rfl | hmem2
    · simp [processBatch, hv]
    · by_cases hx : imageValid x <;>
        simp [processBatch, hx, ih hmem2]

/-- C7: an image whose LabelMask fails the structural contract is
skipped with its name recorded as failed, while every other image of the
batch is processed exactly as it would be without the bad image; in
particular every valid image of the batch still contributes its result. -/
theorem per_image_failure_isolated (cfg : Config) (bad : ImageMasks)
    (pre post : List ImageMasks) (h : imageValid bad = false) :
    processBatch cfg (pre ++ bad :: post) =
      ((processBatch cfg pre).1 ++ bad.name :: (processBatch cfg post).1,
        (processBatch cfg pre).2 ++ (processBatch cfg post).2) ∧
    ∀ im ∈ pre ++ bad :: post, imageValid im = true →
      (im.name, analyzeImage cfg im) ∈
        (processBatch cfg (pre ++ bad :: post)).2 := by
  constructor
  · rw [processBatch_append]
    simp [processBatch, h]
  · intro im hmem hv
    exact processBatch_mem_ok cfg im _ hmem hv

theorem per_image_failure_isolated_witness :
    processBatch cfgFix ([imgGood] ++ imgBad :: [imgGood2]) =
      ((processBatch cfgFix [imgGood]).1 ++ imgBad.name ::
          (processBatch cfgFix [imgGood2]).1,
        (processBatch cfgFix [imgGood]).2 ++
          (processBatch cfgFix [imgGood2]).2) ∧
    (imgGood.name, analyzeImage cfgFix imgGood) ∈
      (processBatch cfgFix ([imgGood] ++ imgBad :: [imgGood2])).2 :=
  ⟨(per_image_failure_isolated cfgFix imgBad [imgGood] [imgGood2]
      (by decide)).1,
   (per_image_failure_isolated cfgFix imgBad [imgGood] [imgGood2]
      (by decide)).2 imgGood (by decide) (by decide)⟩

end CellAnalyzer
